import Mathlib

/-!
banner-ai-server: browser-side extractors

A shallow embedding of two of the zero-argument functions under
`src/core/browser/js/` which the server injects into a rendered page:

* `extract_product_info.js` : candidate discovery and product records,
* `extract_metadata.js`     : page metadata, Open Graph, Twitter and schema.org data.

The rendered page is a tree of text nodes and of HTML and SVG elements.  On an SVG
element `className` is an object and not a string, the properties of the HTML
interfaces (`title`, `name`, `alt`, `content`) are undefined, and `tagName` is not put
in upper case.  Elements of further namespaces, and forms whose controls shadow a
method of the element by their name, are outside the model.  JavaScript strings are
sequences of UTF-16 code units, so
`includes`, `length` and the regular expression of the structural scan work on code
units.  Browser services which the scripts call but do not implement (`toLowerCase`,
the `URL` constructor, `JSON.parse`) are parameters; a call which may throw returns an
`Option`, and so does a script which does not catch it.
-/

namespace BannerAI

/-! ## JavaScript strings -/

/-- UTF-16 code units of one code point. -/
def utf16Units (c : Char) : List Nat :=
  if c.toNat < 65536 then [c.toNat]
  else [55296 + (c.toNat - 65536) / 1024, 56320 + (c.toNat - 65536) % 1024]

/-- Code units of a list of code points. -/
def unitsOf : List Char → List Nat
  | [] => []
  | c :: cs => utf16Units c ++ unitsOf cs

/-- Code units of a string. -/
def codeUnits (s : String) : List Nat := unitsOf s.data

/-- The `length` property of a string. -/
def jsLength (s : String) : Nat := (codeUnits s).length

/-- Whether `pat` occurs in `s` as a contiguous block. -/
def occursIn (pat s : List Nat) : Bool := s.tails.any (fun t => pat.isPrefixOf t)

/-- The method `String.prototype.includes`. -/
def jsIncludes (s pat : String) : Bool := occursIn (codeUnits pat) (codeUnits s)

/-- The method `String.prototype.startsWith`. -/
def jsStartsWith (s pat : String) : Bool := (codeUnits pat).isPrefixOf (codeUnits s)

/-- White space and line terminators of ECMAScript, the characters `trim` strips. -/
def isJsWhiteSpace (c : Char) : Bool :=
  let n := c.toNat
  n == 9 || n == 10 || n == 11 || n == 12 || n == 13 || n == 32 || n == 160 ||
  n == 5760 || (8192 ≤ n && n ≤ 8202) || n == 8232 || n == 8233 || n == 8239 ||
  n == 8287 || n == 12288 || n == 65279

/-- Code points of a trimmed string. -/
def trimData (l : List Char) : List Char :=
  ((l.dropWhile isJsWhiteSpace).reverse.dropWhile isJsWhiteSpace).reverse

/-- The method `String.prototype.trim`. -/
def jsTrim (s : String) : String := ⟨trimData s.data⟩

/-- The method `String.prototype.substring` with one argument, on strings whose first
`n` characters lie in the basic plane (the property names the scripts cut). -/
def jsSubstring (s : String) (n : Nat) : String := ⟨s.data.drop n⟩

/-- The expression `a || b` on strings: the empty string is falsy. -/
def orElse (a b : String) : String := if a = "" then b else a

/-- The expression `a || b` where `a` may be `undefined` or `null`. -/
def orElseOpt (a : Option String) (b : Option String) : Option String :=
  match a with
  | some v => if v = "" then b else some v
  | none => b

/-- Truthiness of a possibly undefined string. -/
def truthy (a : Option String) : Bool :=
  match a with
  | some v => v != ""
  | none => false

/-- ASCII lower-casing of a name, as selector matching applies it to type selectors. -/
def asciiLower (s : String) : String := ⟨s.data.map Char.toLower⟩

/-- ASCII upper-casing of a name, as `tagName` applies it to an HTML element. -/
def asciiUpper (s : String) : String := ⟨s.data.map Char.toUpper⟩

/-! ## Regular expressions over code units -/

/-- Regular expressions, as far as the scripts use them. -/
inductive Regex where
  | fail : Regex
  | eps : Regex
  | sat (p : Nat → Bool) : Regex
  | seq (a b : Regex) : Regex
  | alt (a b : Regex) : Regex
  | star (a : Regex) : Regex

namespace Regex

/-- Whether the expression matches the empty string. -/
def nullable : Regex → Bool
  | fail => false
  | eps => true
  | sat _ => false
  | seq a b => a.nullable && b.nullable
  | alt a b => a.nullable || b.nullable
  | star _ => true

/-- Derivative with respect to one code unit. -/
def deriv : Regex → Nat → Regex
  | fail, _ => fail
  | eps, _ => fail
  | sat p, u => if p u then eps else fail
  | seq a b, u => if a.nullable then alt (seq (a.deriv u) b) (b.deriv u) else seq (a.deriv u) b
  | alt a b, u => alt (a.deriv u) (b.deriv u)
  | star a, u => seq (a.deriv u) (star a)

/-- Whether some initial segment of the input matches. -/
def matchesStart : List Nat → Regex → Bool
  | [], r => r.nullable
  | u :: us, r => r.nullable || matchesStart us (r.deriv u)

/-- Whether the expression matches somewhere in the input (an unanchored search). -/
def search (r : Regex) (s : List Nat) : Bool := s.tails.any (fun t => matchesStart t r)

/-- One given code unit. -/
def unit (c : Char) : Regex := sat (fun u => u == c.toNat)

/-- The quantifier `+`. -/
def plus (a : Regex) : Regex := seq a (star a)

/-- The atom `.`: one code unit other than a line terminator. -/
def dot : Regex := sat (fun u => !(u == 10 || u == 13 || u == 8232 || u == 8233))

/-- The class `\d`. -/
def digit : Regex := sat (fun u => 48 ≤ u && u ≤ 57)

/-- Concatenation of a list of expressions. -/
def cat : List Regex → Regex
  | [] => eps
  | r :: rs => seq r (cat rs)

end Regex

/-- The method `String.prototype.match` with a non-global expression, as a truth value. -/
def jsMatch (s : String) (r : Regex) : Bool := r.search (codeUnits s)

/-! ## The markup tree -/

/-- Properties of an element which the browser computes. -/
structure Props where
  /-- Property `src` of an image: the resolved address, empty without one. -/
  src : String := ""
  /-- Property `width` of an image. -/
  width : Nat := 0
  /-- Property `height` of an image. -/
  height : Nat := 0
  /-- Property `href` of an anchor or link, as the string it converts to; empty when it
  is undefined. -/
  href : String := ""
  /-- Property `value`; `none` on an element which has no such property. -/
  value : Option String := none
  /-- Whether the element is an SVG element and not an HTML element. -/
  svg : Bool := false

/-- Nodes of the rendered tree: text, and HTML or SVG elements with their local name,
attributes (names in lower case, as the HTML parser stores them), computed
properties and children. -/
inductive Node where
  | text (data : String) : Node
  | elem (tag : String) (attrs : List (String × String)) (props : Props)
      (children : List Node) : Node

namespace Node

/-- Local name of an element. -/
def tag : Node → String
  | text _ => ""
  | elem t _ _ _ => t

/-- Attribute list of an element. -/
def attrs : Node → List (String × String)
  | text _ => []
  | elem _ a _ _ => a

/-- Computed properties of an element. -/
def props : Node → Props
  | text _ => {}
  | elem _ _ p _ => p

/-- Child nodes. -/
def children : Node → List Node
  | text _ => []
  | elem _ _ _ cs => cs

/-- The method `getAttribute`. -/
def getAttribute (n : Node) (name : String) : Option String :=
  (n.attrs.find? (fun kv => kv.1 == name)).map Prod.snd

/-- The value of an attribute, empty without it. -/
def reflected (n : Node) (name : String) : String := (n.getAttribute name).getD ""

/-- A string property of the HTML interfaces which reflects an attribute, such as `alt`,
`title`, `name`, `content`: the attribute value on an HTML element, `none` for
`undefined` on an SVG element. -/
def htmlProp (n : Node) (name : String) : Option String :=
  if n.props.svg then none else some (n.reflected name)

/-- The property `className` when it is a string: the `class` attribute of an HTML
element; `none` on an SVG element, where the property is an object without string
methods. -/
def className (n : Node) : Option String :=
  if n.props.svg then none else some (n.reflected "class")

/-- The property `tagName`: in upper case on an HTML element, as it is on an SVG
element. -/
def tagName (n : Node) : String :=
  if n.props.svg then n.tag else asciiUpper n.tag

mutual
/-- Code points of the text of a node and of its descendants, in document order. -/
def textData : Node → List Char
  | text d => d.data
  | elem _ _ _ cs => textDataList cs
/-- Code points of the text of a list of sibling nodes. -/
def textDataList : List Node → List Char
  | [] => []
  | c :: cs => c.textData ++ textDataList cs
end

/-- The property `textContent`. -/
def textContent (n : Node) : String := ⟨n.textData⟩

mutual
/-- An element followed by the elements below it, in document order. -/
def subtree : Node → List Node
  | text _ => []
  | elem t a p cs => elem t a p cs :: subtreeList cs
/-- Elements of the subtrees of a list of siblings, in document order. -/
def subtreeList : List Node → List Node
  | [] => []
  | c :: cs => c.subtree ++ subtreeList cs
end

/-- Descendant elements in document order. -/
def descendants (n : Node) : List Node := subtreeList n.children

end Node

/-! ## Selectors -/

/-- Simple selectors. -/
inductive Simple where
  | universal : Simple
  | tag (name : String) : Simple
  | cls (name : String) : Simple
  | hasAttr (name : String) : Simple
  | attrEq (name value : String) : Simple
  | attrContains (name value : String) : Simple
  | attrStarts (name value : String) : Simple

/-- Compound selector: every simple selector has to match. -/
abbrev Compound := List Simple

/-- Selector list, written with commas: one compound selector has to match. -/
abbrev Selector := List Compound

/-- ASCII white space, which separates class names. -/
def isAsciiSpace (c : Char) : Bool :=
  c.toNat == 9 || c.toNat == 10 || c.toNat == 12 || c.toNat == 13 || c.toNat == 32

/-- Splits at ASCII white space; `cur` is the current token, reversed. -/
def tokensAux : List Char → List Char → List (List Char)
  | [], cur => if cur.isEmpty then [] else [cur.reverse]
  | c :: cs, cur =>
    if isAsciiSpace c then
      (if cur.isEmpty then tokensAux cs [] else cur.reverse :: tokensAux cs [])
    else tokensAux cs (c :: cur)

/-- The class names of a `class` attribute value. -/
def classTokens (v : String) : List (List Char) := tokensAux v.data []

/-- Attributes whose values selectors compare without regard to ASCII case on HTML
elements (of those the scripts mention). -/
def caseInsensitiveAttrs : List String := ["type", "rel"]

/-- Whether one simple selector matches an element. -/
def Simple.matches (n : Node) : Simple → Bool
  | .universal => true
  | .tag name => if n.props.svg then n.tag == name else n.tag == asciiLower name
  | .cls name => (classTokens (n.reflected "class")).contains name.data
  | .hasAttr name => (n.getAttribute name).isSome
  | .attrEq name value =>
    match n.getAttribute name with
    | some v =>
      if caseInsensitiveAttrs.contains name && !n.props.svg then
        asciiLower v == asciiLower value
      else v == value
    | none => false
  | .attrContains name value =>
    match n.getAttribute name with
    | some v => value != "" && jsIncludes v value
    | none => false
  | .attrStarts name value =>
    match n.getAttribute name with
    | some v => value != "" && jsStartsWith v value
    | none => false

/-- Whether a selector list matches an element. -/
def Selector.matches (sel : Selector) (n : Node) : Bool :=
  sel.any (fun c => c.all (fun s => s.matches n))

namespace Node

/-- The method `querySelectorAll` on an element. -/
def querySelectorAll (n : Node) (sel : Selector) : List Node :=
  n.descendants.filter sel.matches

/-- The method `querySelector` on an element. -/
def querySelector (n : Node) (sel : Selector) : Option Node :=
  n.descendants.find? sel.matches

end Node

/-- A document, given by its root element. -/
structure Document where
  /-- The property `documentElement`. -/
  root : Node

namespace Document

/-- All elements of the document in document order. -/
def elements (d : Document) : List Node := d.root.subtree

/-- The method `querySelectorAll` on the document. -/
def querySelectorAll (d : Document) (sel : Selector) : List Node :=
  d.elements.filter sel.matches

/-- The method `querySelector` on the document. -/
def querySelector (d : Document) (sel : Selector) : Option Node :=
  d.elements.find? sel.matches

end Document

/-! ## extract_product_info.js -/

/-- Services of the page which the product script calls. -/
structure Env where
  /-- The method `String.prototype.toLowerCase`. -/
  toLowerCase : String → String
  /-- The expression `new URL(url, window.location.origin).href`; `none` when the
  constructor throws its `TypeError` (an address or an origin which does not parse). -/
  newURL : String → Option String

/-- Common product container selectors. -/
def productSelectors : List Selector :=
  [ [[.cls "product"]],
    [[.cls "product-card"]],
    [[.cls "product-item"]],
    [[.cls "product-container"]],
    [[.hasAttr "data-product-id"]],
    [[.cls "item-product"]],
    [[.tag "Product"]],
    [[.attrContains "class" "ProductImage"]],
    [[.attrContains "class" "product-image"]],
    [[.attrContains "class" "productImage"]],
    [[.attrContains "class" "imageContainer"]] ]

/-- The loop over `productSelectors`: the matches of the first selector which has any. -/
def firstMatchSet (doc : Document) : List Selector → List Node
  | [] => []
  | selector :: rest =>
    let elements := doc.querySelectorAll selector
    if elements.length > 0 then elements else firstMatchSet doc rest

/-- The character `\`. -/
def backslash : Char := Char.ofNat 92

/-- The expression literal of the structural scan as the script spells it,
`/\\d+\\.\\d{2}/`: every backslash is itself escaped, so the literal asks for a
backslash, one or more letters `d`, a backslash, any one code unit, a backslash and
two letters `d`. -/
def scanPattern : Regex :=
  Regex.cat [Regex.unit backslash, Regex.plus (Regex.unit 'd'), Regex.unit backslash,
    Regex.dot, Regex.unit backslash, Regex.unit 'd', Regex.unit 'd']

/-- Whether the text holds one of the currency signs the script looks for. -/
def hasCurrencySign (t : String) : Bool :=
  jsIncludes t "$" || jsIncludes t "€" || jsIncludes t "₹"

/-- The test of the structural scan on one element. -/
def structuralTest (el : Node) : Bool :=
  let priceEl := hasCurrencySign el.textContent
  (el.querySelector [[.tag "img"]]).isSome &&
    (jsMatch el.textContent scanPattern || priceEl ||
      (el.querySelector [[.cls "price"]]).isSome)

/-- The structural scan over every element of the document. -/
def structuralScan (doc : Document) : List Node :=
  (doc.querySelectorAll [[.universal]]).filter structuralTest

/-- Candidate discovery: the selector loop, then the structural scan when it found
nothing. -/
def Document.productElements (doc : Document) : List Node :=
  let productElements := firstMatchSet doc productSelectors
  if productElements.length = 0 then structuralScan doc else productElements

/-- Intermediate image entry. -/
structure ImageAsset where
  /-- Resolved address, `none` for `null`. -/
  url : Option String
  /-- Alternative text. -/
  alt : String
  /-- Rendered width. -/
  width : Nat
  /-- Rendered height. -/
  height : Nat

/-- The address of an image: `src`, else `data-src`, else `data-lazy-src`. -/
def imageUrl (img : Node) : Option String :=
  orElseOpt (some img.props.src)
    (orElseOpt (img.getAttribute "data-src") (img.getAttribute "data-lazy-src"))

/-- The entry built for one image. -/
def imageAsset (index : Nat) (img : Node) : ImageAsset :=
  { url := imageUrl img
    alt := (orElseOpt (img.htmlProp "alt")
      (some ("Product image " ++ toString index))).getD ""
    width := img.props.width
    height := img.props.height }

/-- The filter on image entries. -/
def ImageAsset.keep (img : ImageAsset) : Bool :=
  match img.url with
  | some u => u != "" && !jsIncludes u "placeholder" && decide (img.width > 50)
  | none => false

/-- Image entries of a candidate after filtering. -/
def imageAssets (productEl : Node) (index : Nat) : List ImageAsset :=
  ((productEl.querySelectorAll [[.tag "img"]]).map (imageAsset index)).filter ImageAsset.keep

/-- The `images` field. -/
def images (productEl : Node) (index : Nat) : List String :=
  (imageAssets productEl index).map (fun img => img.url.getD "")

/-- A selector loop of a field: the trimmed text of the first element found by the first
selector which finds one, the empty string without one. -/
def cascadeText (productEl : Node) : List Selector → String
  | [] => ""
  | selector :: rest =>
    match productEl.querySelector selector with
    | some found => jsTrim found.textContent
    | none => cascadeText productEl rest

/-- Title selectors. -/
def titleSelectors : List Selector :=
  [ [[.tag "h1"]], [[.tag "h2"]], [[.tag "h3"]], [[.tag "h4"]],
    [[.cls "product-title"]], [[.cls "title"]],
    [[.attrContains "class" "product-name"]],
    [[.attrContains "class" "productName"]],
    [[.attrContains "class" "ProductTitle"]],
    [[.attrEq "itemprop" "name"]] ]

/-- Price selectors. -/
def priceSelectors : List Selector :=
  [ [[.cls "price"]], [[.cls "product-price"]], [[.hasAttr "data-price"]],
    [[.attrContains "class" "price"]], [[.attrContains "class" "Price"]],
    [[.attrEq "itemprop" "price"]] ]

/-- Description selectors. -/
def descSelectors : List Selector :=
  [ [[.cls "description"]], [[.cls "product-description"]],
    [[.attrEq "itemprop" "description"]],
    [[.attrContains "class" "description"]], [[.attrContains "class" "Description"]] ]

/-- One step of the scan for a price among all descendants. -/
def priceStep (price : String) (el : Node) : String :=
  if hasCurrencySign el.textContent then
    let textContent := jsTrim el.textContent
    if textContent != "" && decide (jsLength textContent < 200) then textContent else price
  else price

/-- The scan for a price among all descendants. -/
def priceScan (productEl : Node) : String :=
  (productEl.querySelectorAll [[.universal]]).foldl priceStep ""

/-- The variable `price` before assembly. -/
def price (productEl : Node) : String :=
  let price := cascadeText productEl priceSelectors
  if price = "" then priceScan productEl else price

/-- Selector of a sale price. -/
def saleSelector : Selector :=
  [[.cls "sale-price"], [.cls "special-price"], [.attrContains "class" "sale"],
    [.attrContains "class" "Sale"]]

/-- Selector of a regular price. -/
def regularSelector : Selector :=
  [[.cls "regular-price"], [.cls "original-price"], [.cls "old-price"],
    [.attrContains "class" "regular"], [.attrContains "class" "original"]]

/-- The variable `salePrice`. -/
def salePrice (productEl : Node) : Option String :=
  (productEl.querySelector saleSelector).map (fun s => jsTrim s.textContent)

/-- The variable `regularPrice`. -/
def regularPrice (productEl : Node) : Option String :=
  match productEl.querySelector saleSelector with
  | some _ => (productEl.querySelector regularSelector).map (fun r => jsTrim r.textContent)
  | none => none

/-- Selector of the breadcrumb trail. -/
def breadcrumbSelector : Selector :=
  [[.cls "breadcrumb"], [.cls "breadcrumbs"], [.attrContains "class" "breadcrumb"]]

/-- The variable `category`. -/
def category (doc : Document) : String :=
  match doc.querySelector breadcrumbSelector with
  | some breadcrumbEl =>
    let breadcrumbLinks := breadcrumbEl.querySelectorAll [[.tag "a"]]
    if breadcrumbLinks.length > 1 then
      match breadcrumbLinks.get? (breadcrumbLinks.length - 2) with
      | some link => jsTrim link.textContent
      | none => ""
    else ""
  | none => ""

/-- Selector of an element carrying the stock keeping unit. -/
def skuSelector : Selector :=
  [[.attrEq "itemprop" "sku"], [.cls "sku"], [.attrContains "class" "sku"],
    [.attrContains "class" "SKU"]]

/-- The expression `productEl.dataset.productId || productEl.dataset.sku || ""`. -/
def dataSku (productEl : Node) : String :=
  (orElseOpt (orElseOpt (productEl.getAttribute "data-product-id")
    (productEl.getAttribute "data-sku")) (some "")).getD ""

/-- The variable `sku`. -/
def sku (productEl : Node) : String :=
  let sku := dataSku productEl
  if sku = "" then
    match productEl.querySelector skuSelector with
    | some skuEl => jsTrim skuEl.textContent
    | none => sku
  else sku

/-- The `id` field: `sku || productEl.dataset.productId || "product-" + index`. -/
def productId (productEl : Node) (index : Nat) : String :=
  (orElseOpt (orElseOpt (some (sku productEl)) (productEl.getAttribute "data-product-id"))
    (some ("product-" ++ toString index))).getD ""

/-- Selector of an element carrying the availability. -/
def availabilitySelector : Selector :=
  [[.attrEq "itemprop" "availability"], [.cls "availability"], [.cls "stock"],
    [.attrContains "class" "stock"], [.attrContains "class" "Stock"]]

/-- Classification of the lower-cased availability text. -/
def classifyAvailability (availText : String) : String :=
  if jsIncludes availText "in stock" || jsIncludes availText "available" then "in_stock"
  else if jsIncludes availText "out of stock" || jsIncludes availText "sold out" then
    "out_of_stock"
  else if jsIncludes availText "preorder" || jsIncludes availText "pre-order" then "preorder"
  else "unknown"

/-- The variable `availability`. -/
def availability (env : Env) (productEl : Node) : String :=
  match productEl.querySelector availabilitySelector with
  | some availabilityEl => classifyAvailability (env.toLowerCase availabilityEl.textContent)
  | none => "unknown"

/-- An entry of the `variants` field. -/
structure VariantOption where
  /-- Name of the control, or the kind of swatch. -/
  name : String
  /-- Visible value. -/
  value : String
  /-- Submitted value. -/
  id : String

/-- The one selector of a variant control. -/
def variantSelector : Selector :=
  [[.tag "select", .cls "variant"], [.tag "select", .attrContains "name" "variant"],
    [.tag "select", .cls "option"], [.tag "select", .attrContains "name" "option"]]

/-- Selectors of a variant control. -/
def variantSelectors : List Selector := [variantSelector]

/-- The test on an option of a variant control: a placeholder is left out. -/
def isChoice (option : Node) : Bool :=
  truthy option.props.value && option.props.value != some "choose" &&
    jsTrim option.textContent != "Select"

/-- The entries pushed for the options of one variant control. -/
def selectVariants (variantEl : Node) : List VariantOption :=
  ((variantEl.querySelectorAll [[.tag "option"]]).filter isChoice).map (fun option =>
    { name := (orElseOpt (variantEl.htmlProp "name") (some "variant")).getD ""
      value := jsTrim option.textContent
      id := option.props.value.getD "" })

/-- The loop over `variantSelectors`. -/
def controlVariants (productEl : Node) : List Selector → List VariantOption
  | [] => []
  | selector :: rest =>
    (match productEl.querySelector selector with
      | some variantEl => selectVariants variantEl
      | none => []) ++ controlVariants productEl rest

/-- Selector of swatch containers. -/
def swatchContainerSelector : Selector :=
  [[.cls "swatch"], [.cls "color-swatch"], [.cls "size-swatch"],
    [.attrContains "class" "swatch"], [.attrContains "class" "Swatch"]]

/-- Selector of the swatches in a container. -/
def swatchSelector : Selector :=
  [[.tag "a"], [.tag "button"], [.attrEq "role" "button"],
    [.tag "input", .attrEq "type" "radio"]]

/-- The entry pushed for one swatch. -/
def swatchVariant (swatchType : String) (swatch : Node) : VariantOption :=
  { name := swatchType
    value := (orElseOpt (some (jsTrim swatch.textContent))
      (orElseOpt (swatch.htmlProp "title")
        (orElseOpt swatch.props.value
          (orElseOpt (swatch.getAttribute "data-value") (some ""))))).getD ""
    id := (orElseOpt swatch.props.value
      (orElseOpt (swatch.getAttribute "data-value") (some ""))).getD "" }

/-- The entries pushed for one swatch container; `none` when
`container.className.toLowerCase()` throws its `TypeError`, as it does when `className`
is not a string. -/
def containerVariants (env : Env) (container : Node) : Option (List VariantOption) :=
  match container.className with
  | none => none
  | some className =>
    let swatchType := if jsIncludes (env.toLowerCase className) "color" then "color" else "size"
    some ((container.querySelectorAll swatchSelector).map (swatchVariant swatchType))

/-- The loop over a list of swatch containers; `none` when it throws at one of them. -/
def swatchVariantsOf (env : Env) : List Node → Option (List VariantOption)
  | [] => some []
  | container :: rest =>
    match containerVariants env container with
    | none => none
    | some pushed =>
      match swatchVariantsOf env rest with
      | none => none
      | some more => some (pushed ++ more)

/-- The entries pushed for all swatch containers of a candidate; `none` when the loop
throws. -/
def swatchVariants (env : Env) (productEl : Node) : Option (List VariantOption) :=
  swatchVariantsOf env (productEl.querySelectorAll swatchContainerSelector)

/-- The array `variants` before assembly; `none` when the swatch loop throws. -/
def variantList (env : Env) (productEl : Node) : Option (List VariantOption) :=
  (swatchVariants env productEl).map
    (fun pushed => controlVariants productEl variantSelectors ++ pushed)

/-- The `variants` field: `variants.length > 0 ? variants : null`. -/
def variants (pushed : List VariantOption) : Option (List VariantOption) :=
  if pushed.length > 0 then some pushed else none

/-- The variable `url`: the link of the first anchor below the candidate, or that of the
candidate when it is an anchor itself; `none` for `null`. -/
def url (productEl : Node) : Option String :=
  let first := orElseOpt ((productEl.querySelector [[.tag "a"]]).map (fun a => a.props.href)) none
  if !truthy first && productEl.tagName == "A" then some productEl.props.href else first

/-- The `url` field, `url ? new URL(url, window.location.origin).href : null`:
the outer `none` is a thrown `TypeError`, the inner `none` is `null`. -/
def resolveLink (env : Env) (url : Option String) : Option (Option String) :=
  if truthy url then (env.newURL (url.getD "")).map some else some none

/-- The output entity. -/
structure ProductRecord where
  /-- Identifier. -/
  id : String
  /-- Title. -/
  title : String
  /-- Price. -/
  price : String
  /-- Sale price. -/
  sale_price : Option String
  /-- Regular price. -/
  regular_price : Option String
  /-- Description. -/
  description : String
  /-- Category. -/
  category : String
  /-- Availability. -/
  availability : String
  /-- Variants. -/
  variants : Option (List VariantOption)
  /-- Image addresses. -/
  images : List String
  /-- Absolute link. -/
  url : Option String

/-- The callback of `map`: the record of one candidate at one index; `none` when the
callback throws, in the swatch loop or in the `URL` constructor. -/
def productRecord (env : Env) (doc : Document) (productEl : Node) (index : Nat) :
    Option ProductRecord :=
  match variantList env productEl with
  | none => none
  | some pushed =>
    match resolveLink env (url productEl) with
    | none => none
    | some href =>
      some
        { id := productId productEl index
          title := orElse (cascadeText productEl titleSelectors) "Unknown Product"
          price := orElse (price productEl) "N/A"
          sale_price := salePrice productEl
          regular_price := regularPrice productEl
          description := cascadeText productEl descSelectors
          category := category doc
          availability := availability env productEl
          variants := variants pushed
          images := images productEl index
          url := href }

/-- The method `map` with a callback which may throw, from index `index` on. -/
def mapRecords (env : Env) (doc : Document) : Nat → List Node → Option (List ProductRecord)
  | _, [] => some []
  | index, productEl :: rest =>
    match productRecord env doc productEl index with
    | none => none
    | some r =>
      match mapRecords env doc (index + 1) rest with
      | none => none
      | some rs => some (r :: rs)

/-- The product script: `productElements.slice(0, 20).map(...)`; `none` when it throws. -/
def extractProducts (env : Env) (doc : Document) : Option (List ProductRecord) :=
  mapRecords env doc 0 (doc.productElements.take 20)

/-! ## extract_metadata.js -/

/-- The assignment `obj[key] = value` on an object kept as a list of entries. -/
def setKey (obj : List (String × Option String)) (key : String) (value : Option String) :
    List (String × Option String) :=
  if obj.any (fun kv => kv.1 == key) then
    obj.map (fun kv => if kv.1 == key then (key, value) else kv)
  else obj ++ [(key, value)]

/-- The result of the metadata script; `J` is the type of parsed JSON values. -/
structure Metadata (J : Type) where
  /-- Content of the description entry. -/
  description : Option String
  /-- Content of the keywords entry. -/
  keywords : Option String
  /-- Content of the author entry. -/
  author : Option String
  /-- Address of the canonical link. -/
  canonical : Option String
  /-- Open Graph entries; a value is `none` for `undefined`. -/
  og_tags : List (String × Option String)
  /-- Twitter entries; a value is `none` for `undefined`. -/
  twitter_tags : List (String × Option String)
  /-- Parsed schema.org blocks, `none` for `null`. -/
  schema_org : Option (List J)

/-- The expression `document.querySelector(sel)?.content || null`. -/
def metaContent (doc : Document) (name : String) : Option String :=
  orElseOpt ((doc.querySelector [[.tag "meta", .attrEq "name" name]]).bind
    (fun m => m.htmlProp "content")) none

/-- Entries collected from the tags found by `sel`, keyed by attribute `attr` cut at `n`. -/
def collectTags (tags : List Node) (attr : String) (n : Nat) :
    List (String × Option String) :=
  tags.foldl (fun obj tag =>
    setKey obj (jsSubstring ((tag.getAttribute attr).getD "") n) (tag.htmlProp "content")) []

/-- Selector of the schema.org blocks. -/
def schemaSelector : Selector := [[.tag "script", .attrEq "type" "application/ld+json"]]

/-- The loop over the schema.org blocks: a block which does not parse is skipped. -/
def parseBlocks {J : Type} (parse : String → Option J) : List Node → List J
  | [] => []
  | script :: rest =>
    match parse script.textContent with
    | some v => v :: parseBlocks parse rest
    | none => parseBlocks parse rest

/-- The `schema_org` entry. -/
def schemaOrg {J : Type} (parse : String → Option J) (doc : Document) : Option (List J) :=
  let schemaScripts := doc.querySelectorAll schemaSelector
  if schemaScripts.length > 0 then some (parseBlocks parse schemaScripts) else none

/-- The metadata script; `parse` is `JSON.parse`, `none` when it throws. -/
def extractMetadata {J : Type} (parse : String → Option J) (doc : Document) : Metadata J :=
  { description := metaContent doc "description"
    keywords := metaContent doc "keywords"
    author := metaContent doc "author"
    canonical := orElseOpt ((doc.querySelector [[.tag "link", .attrEq "rel" "canonical"]]).map
      (fun l => l.props.href)) none
    og_tags := collectTags (doc.querySelectorAll [[.tag "meta", .attrStarts "property" "og:"]])
      "property" 3
    twitter_tags :=
      collectTags (doc.querySelectorAll [[.tag "meta", .attrStarts "name" "twitter:"]]) "name" 8
    schema_org := schemaOrg parse doc }

/-! ## Reference definitions

The properties below compare the scripts with these direct readings of their
description. -/

/-- The pattern the structural scan is described with: one or more digits, a dot, two
digits. -/
def decimalPattern : Regex :=
  Regex.cat [Regex.plus Regex.digit, Regex.unit '.', Regex.digit, Regex.digit]

/-- A placeholder option: an empty value, the value `choose`, or the visible text
`Select`. -/
def isPlaceholder (option : Node) : Bool :=
  !truthy option.props.value || option.props.value == some "choose" ||
    jsTrim option.textContent == "Select"

/-- The selection options of a candidate: the options of the variant control which
`variantSelector` finds, placeholders skipped. -/
def selectionOptions (productEl : Node) : List Node :=
  match productEl.querySelector variantSelector with
  | some variantEl =>
    (variantEl.querySelectorAll [[.tag "option"]]).filter (fun o => !isPlaceholder o)
  | none => []

/-- The swatch actuators of a candidate: for each swatch container in document order,
the links, buttons, button roles and radio inputs below it. -/
def swatchActuators (productEl : Node) : List Node :=
  ((productEl.querySelectorAll swatchContainerSelector).map
    (fun container => container.querySelectorAll swatchSelector)).flatten

/-- The resolved address of an image: `src` when it is not empty, else `data-src` when
it is not empty, else `data-lazy-src` when it is not empty. -/
def resolvedUrl (img : Node) : Option String :=
  if img.props.src ≠ "" then some img.props.src
  else if truthy (img.getAttribute "data-src") then img.getAttribute "data-src"
  else if truthy (img.getAttribute "data-lazy-src") then img.getAttribute "data-lazy-src"
  else none

/-- The entry one image contributes: its resolved address when that is not empty, does
not contain `placeholder`, and the width of the image is greater than 50. -/
def listedUrl (img : Node) : Option String :=
  match resolvedUrl img with
  | some u => if jsIncludes u "placeholder" = false ∧ img.props.width > 50 then some u else none
  | none => none

/-- The images the record is to list: the entries of the descendant images in document
order. -/
def listedImages (productEl : Node) : List String :=
  (productEl.querySelectorAll [[.tag "img"]]).filterMap listedUrl

/-- Whether a descendant qualifies in the scan for a price: its text holds a currency
sign, and its trimmed text is not empty and shorter than 200. -/
def qualifiesForPrice (el : Node) : Bool :=
  hasCurrencySign el.textContent && jsTrim el.textContent != "" &&
    decide (jsLength (jsTrim el.textContent) < 200)

/-- The price the scan is to give: the trimmed text of the last qualifying descendant
in document order, `N/A` without one. -/
def scannedPrice (productEl : Node) : String :=
  match (productEl.descendants.filter qualifiesForPrice).getLast? with
  | some el => jsTrim el.textContent
  | none => "N/A"

/-- The identifier the record is to carry: the `data-product-id` attribute when it is
not empty, else the `data-sku` attribute when it is not empty, else the trimmed text of
the first element found by `skuSelector` when that is not empty, else `product-` followed
by the index. -/
def expectedId (productEl : Node) (index : Nat) : String :=
  if truthy (productEl.getAttribute "data-product-id") then
    (productEl.getAttribute "data-product-id").getD ""
  else if truthy (productEl.getAttribute "data-sku") then
    (productEl.getAttribute "data-sku").getD ""
  else
    match productEl.querySelector skuSelector with
    | some skuEl =>
      if jsTrim skuEl.textContent ≠ "" then jsTrim skuEl.textContent
      else "product-" ++ toString index
    | none => "product-" ++ toString index

/-- Whether the record callback runs to its end on a candidate: every swatch container
below it has a string `className`, and the `URL` constructor accepts its link, when it
has one. -/
def callbackCompletes (env : Env) (productEl : Node) : Bool :=
  (productEl.querySelectorAll swatchContainerSelector).all (fun c => c.className.isSome) &&
    (resolveLink env (url productEl)).isSome

/-! ## Sample pages -/

/-- A page environment: ASCII lower-casing, and a `URL` constructor which rejects the
address `http://[` (a host with an unclosed bracket) and returns any other address as
it is. -/
def sampleEnv : Env :=
  { toLowerCase := asciiLower
    newURL := fun u => if u = "http://[" then none else some u }

/-- A product card with a title, a price, an image and a link. -/
def card : Node :=
  .elem "div" [("class", "product-card")] {}
    [ .elem "h2" [] {} [.text "Widget"],
      .elem "span" [("class", "price")] {} [.text " $19.99 "],
      .elem "img" [] { src := "https://shop.example/w.png", width := 100, height := 100 } [],
      .elem "a" [("href", "/widget")] { href := "https://shop.example/widget" } [.text "more"] ]

/-- A page with 21 product cards. -/
def manyDoc : Document :=
  ⟨.elem "html" [] {} [.elem "body" [] {} (List.replicate 21 card)]⟩

/-- A page with one product whose link does not parse; the `href` property of such an
anchor is the attribute value as written. -/
def brokenLinkDoc : Document :=
  ⟨.elem "html" [] {} [.elem "body" [] {}
    [.elem "div" [("class", "product")] {}
      [.elem "a" [("href", "http://[")] { href := "http://[" } [.text "Widget"]]]]⟩

/-- A page with one product without any link, whose swatch container is an SVG
element. -/
def svgSwatchDoc : Document :=
  ⟨.elem "html" [] {} [.elem "body" [] {}
    [.elem "div" [("class", "product")] {}
      [.elem "svg" [("class", "color-swatch")] { svg := true } []]]]⟩

/-- A page with a product card and a second box, which a later product selector and the
structural scan would find. -/
def mixedDoc : Document :=
  ⟨.elem "html" [] {} [.elem "body" [] {}
    [ card,
      .elem "div" [("class", "product-image-box")] {}
        [.elem "img" [] { src := "https://shop.example/x.png", width := 90 } [],
          .text "$5"] ]]⟩

/-- A box with an image and the text `15.00`. -/
def fifteenDiv : Node :=
  .elem "div" [] {}
    [.elem "img" [] { src := "https://shop.example/t.png", width := 100 } [], .text "15.00"]

/-- A page whose only content is `fifteenDiv`. -/
def fifteenDoc : Document := ⟨.elem "html" [] {} [.elem "body" [] {} [fifteenDiv]]⟩

/-- A box with an image and a price in euro. -/
def euroDiv : Node :=
  .elem "div" [] {}
    [.elem "img" [] { src := "https://shop.example/e.png", width := 100 } [],
      .text "Price: €15.00"]

/-- A page whose only content is `euroDiv`. -/
def euroDoc : Document := ⟨.elem "html" [] {} [.elem "body" [] {} [euroDiv]]⟩

/-- A stock note which mentions both `available` and `sold out`. -/
def stockNote : Node :=
  .elem "p" [("class", "stock")] {} [.text "Currently UNAVAILABLE - Sold Out"]

/-- A product card with a stock note, a variant control, swatches and images. -/
def lampCard : Node :=
  .elem "div" [("class", "product"), ("data-sku", "SKU-7")] {}
    [ .elem "h3" [] {} [.text "Lamp"],
      stockNote,
      .elem "select" [("name", "variant-size")] { value := some "" }
        [ .elem "option" [("value", "")] { value := some "" } [.text "Select"],
          .elem "option" [("value", "s")] { value := some "s" } [.text " Small "],
          .elem "option" [("value", "choose")] { value := some "choose" } [.text "Choose"] ],
      .elem "div" [("class", "color-swatch")] {}
        [ .elem "button" [("value", "red")] { value := some "red" } [.text "Red"],
          .elem "a" [("title", "Blue"), ("href", "/lamp?c=blue")]
            { href := "https://shop.example/lamp?c=blue" } [] ],
      .elem "img" [("src", "/a.png")] { src := "https://shop.example/a.png", width := 120 } [],
      .elem "img" [("data-src", "https://cdn.example/b.png")] { width := 80 } [],
      .elem "img" [] { src := "https://shop.example/placeholder.png", width := 300 } [],
      .elem "img" [] { src := "https://shop.example/tiny.png", width := 50 } [],
      .elem "img" [] { width := 200 } [],
      .elem "s" [] {} [.text "$30.00"],
      .elem "span" [("class", "cost")] {} [.text " $25.00 "] ]

/-- A page whose only content is `lampCard`. -/
def lampDoc : Document := ⟨.elem "html" [] {} [.elem "body" [] {} [lampCard]]⟩

/-- The record of `lampCard`. -/
def lampRecord : ProductRecord :=
  { id := "SKU-7"
    title := "Lamp"
    price := "$25.00"
    sale_price := none
    regular_price := none
    description := ""
    category := ""
    availability := "in_stock"
    variants := some
      [ { name := "variant-size", value := "Small", id := "s" },
        { name := "color", value := "Red", id := "red" },
        { name := "color", value := "Blue", id := "" } ]
    images := ["https://shop.example/a.png", "https://cdn.example/b.png"]
    url := some "https://shop.example/lamp?c=blue" }

/-- A card without any marker: no stock note, no control, no swatch, no image. -/
def bareCard : Node := .elem "div" [("class", "product")] {} [.elem "h2" [] {} [.text "Box"]]

/-- A page whose only content is `bareCard`. -/
def bareDoc : Document := ⟨.elem "html" [] {} [.elem "body" [] {} [bareCard]]⟩

/-- The record of `bareCard`. -/
def bareRecord : ProductRecord :=
  { id := "product-0"
    title := "Box"
    price := "N/A"
    sale_price := none
    regular_price := none
    description := ""
    category := ""
    availability := "unknown"
    variants := none
    images := []
    url := none }

/-- A sample `JSON.parse` which knows numerals only: a text of decimal digits without a
leading zero parses to its number, and every other text is rejected. -/
def parseNumeral (s : String) : Option Nat :=
  if s.data.all Char.isDigit && !s.data.isEmpty &&
      (s.data.head? != some '0' || s.data.length == 1) then
    some (s.data.foldl (fun n c => 10 * n + (c.toNat - 48)) 0)
  else none

/-- A page with three schema.org blocks, the second of which does not parse, and one
script of another type. -/
def schemaDoc : Document :=
  ⟨.elem "html" [] {}
    [ .elem "head" [] {}
        [ .elem "script" [("type", "application/ld+json")] {} [.text "1"],
          .elem "script" [("type", "text/javascript")] {} [.text "7"],
          .elem "script" [("type", "application/ld+json")] {} [.text "oops"],
          .elem "script" [("type", "application/ld+json")] {} [.text "3"] ],
      .elem "body" [] {} [] ]⟩

/-! ## Properties -/

theorem unitsOf_append (a b : List Char) : unitsOf (a ++ b) = unitsOf a ++ unitsOf b := by
  induction a with
  | nil => rfl
  | cons c cs ih => simp [unitsOf, ih]

theorem occursIn_iff (pat s : List Nat) :
    occursIn pat s = true ↔ ∃ pre post, s = pre ++ pat ++ post := by
  unfold occursIn
  simp only [List.any_eq_true, List.mem_tails, List.isPrefixOf_iff_prefix]
  constructor
  · rintro ⟨t, ⟨pre, hpre⟩, ⟨post, hpost⟩⟩
    exact ⟨pre, post, by rw [← hpre, ← hpost, List.append_assoc]⟩
  · rintro ⟨pre, post, h⟩
    exact ⟨pat ++ post, ⟨pre, by rw [h, List.append_assoc]⟩, ⟨post, rfl⟩⟩

theorem matchesStart_append (s post : List Nat) (r : Regex) (h : r.matchesStart s = true) :
    r.matchesStart (s ++ post) = true := by
  induction s generalizing r with
  | nil =>
    cases post with
    | nil => exact h
    | cons u us => simp [Regex.matchesStart] at h ⊢; exact Or.inl h
  | cons u us ih =>
    simp only [Regex.matchesStart, List.cons_append, Bool.or_eq_true] at h ⊢
    rcases h with h | h
    · exact Or.inl h
    · exact Or.inr (ih _ h)

theorem search_mono (r : Regex) (pre s post : List Nat) (h : r.search s = true) :
    r.search (pre ++ s ++ post) = true := by
  unfold Regex.search at h ⊢
  simp only [List.any_eq_true, List.mem_tails] at h ⊢
  obtain ⟨t, ⟨p, hp⟩, ht⟩ := h
  refine ⟨t ++ post, ⟨pre ++ p, ?_⟩, matchesStart_append t post r ht⟩
  rw [← hp]; simp [List.append_assoc]

mutual
theorem subtree_trans (a : Node) : ∀ n ∈ a.subtree, ∀ x ∈ n.subtree, x ∈ a.subtree := by
  cases a with
  | text d => intro n hn; simp [Node.subtree] at hn
  | elem t al p cs =>
    intro n hn x hx
    simp only [Node.subtree, List.mem_cons] at hn ⊢
    rcases hn with rfl | hn
    · simpa [Node.subtree] using hx
    · exact Or.inr (subtreeList_trans cs n hn x hx)
theorem subtreeList_trans (cs : List Node) :
    ∀ n ∈ Node.subtreeList cs, ∀ x ∈ n.subtree, x ∈ Node.subtreeList cs := by
  cases cs with
  | nil => intro n hn; simp [Node.subtreeList] at hn
  | cons c rest =>
    intro n hn x hx
    simp only [Node.subtreeList, List.mem_append] at hn ⊢
    rcases hn with hn | hn
    · exact Or.inl (subtree_trans c n hn x hx)
    · exact Or.inr (subtreeList_trans rest n hn x hx)
end

mutual
theorem textData_subtree (a : Node) :
    ∀ n ∈ a.subtree, ∃ pre post, a.textData = pre ++ n.textData ++ post := by
  cases a with
  | text d => intro n hn; simp [Node.subtree] at hn
  | elem t al p cs =>
    intro n hn
    simp only [Node.subtree, List.mem_cons] at hn
    rcases hn with rfl | hn
    · exact ⟨[], [], by simp⟩
    · simpa [Node.textData] using textData_subtreeList cs n hn
theorem textData_subtreeList (cs : List Node) :
    ∀ n ∈ Node.subtreeList cs, ∃ pre post, Node.textDataList cs = pre ++ n.textData ++ post := by
  cases cs with
  | nil => intro n hn; simp [Node.subtreeList] at hn
  | cons c rest =>
    intro n hn
    simp only [Node.subtreeList, List.mem_append] at hn
    rcases hn with hn | hn
    · obtain ⟨pre, post, h⟩ := textData_subtree c n hn
      exact ⟨pre, post ++ Node.textDataList rest, by simp [Node.textDataList, h]⟩
    · obtain ⟨pre, post, h⟩ := textData_subtreeList rest n hn
      exact ⟨c.textData ++ pre, post, by simp [Node.textDataList, h]⟩
end

theorem descendants_subset_subtree (n x : Node) (h : x ∈ n.descendants) : x ∈ n.subtree := by
  cases n with
  | text d => simp [Node.descendants, Node.children, Node.subtreeList] at h
  | elem t al p cs =>
    simp only [Node.descendants, Node.children] at h
    simp [Node.subtree, h]

theorem descendants_trans (a n x : Node) (hn : n ∈ a.descendants) (hx : x ∈ n.descendants) :
    x ∈ a.descendants :=
  subtreeList_trans a.children n hn x (descendants_subset_subtree n x hx)

theorem textData_descendant (a n : Node) (hn : n ∈ a.descendants) :
    ∃ pre post, a.textData = pre ++ n.textData ++ post := by
  cases a with
  | text d => simp [Node.descendants, Node.children, Node.subtreeList] at hn
  | elem t al p cs =>
    simpa [Node.textData] using textData_subtreeList cs n hn

theorem codeUnits_descendant (a n : Node) (hn : n ∈ a.descendants) :
    ∃ pre post, codeUnits a.textContent = pre ++ codeUnits n.textContent ++ post := by
  obtain ⟨pre, post, h⟩ := textData_descendant a n hn
  refine ⟨unitsOf pre, unitsOf post, ?_⟩
  simp [codeUnits, Node.textContent, h, unitsOf_append]

theorem jsIncludes_mono (s t pat : String) (pre post : List Nat)
    (hst : codeUnits t = pre ++ codeUnits s ++ post) (h : jsIncludes s pat = true) :
    jsIncludes t pat = true := by
  unfold jsIncludes at h ⊢
  rw [occursIn_iff] at h ⊢
  obtain ⟨p, q, hpq⟩ := h
  exact ⟨pre ++ p, q ++ post, by rw [hst, hpq]; simp [List.append_assoc]⟩

theorem querySelector_isSome (n : Node) (sel : Selector) :
    (n.querySelector sel).isSome = true ↔ ∃ x ∈ n.descendants, sel.matches x = true := by
  simp [Node.querySelector, List.find?_isSome]

theorem querySelector_mono (a n : Node) (sel : Selector) (hn : n ∈ a.descendants)
    (h : (n.querySelector sel).isSome = true) : (a.querySelector sel).isSome = true := by
  rw [querySelector_isSome] at h ⊢
  obtain ⟨x, hx, hm⟩ := h
  exact ⟨x, descendants_trans a n x hn hx, hm⟩

theorem structuralTest_mono (a n : Node) (hn : n ∈ a.descendants)
    (h : structuralTest n = true) : structuralTest a = true := by
  obtain ⟨pre, post, hu⟩ := codeUnits_descendant a n hn
  simp only [structuralTest, hasCurrencySign, jsMatch, Bool.and_eq_true, Bool.or_eq_true] at h ⊢
  obtain ⟨himg, hrest⟩ := h
  refine ⟨querySelector_mono a n _ hn himg, ?_⟩
  rcases hrest with (hm | hc) | hp
  · exact Or.inl (Or.inl (by rw [hu]; exact search_mono _ pre _ post hm))
  · refine Or.inl (Or.inr ?_)
    rcases hc with (hc | hc) | hc
    · exact Or.inl (Or.inl (jsIncludes_mono _ _ _ pre post hu hc))
    · exact Or.inl (Or.inr (jsIncludes_mono _ _ _ pre post hu hc))
    · exact Or.inr (jsIncludes_mono _ _ _ pre post hu hc)
  · exact Or.inr (querySelector_mono a n _ hn hp)

theorem swatchVariantsOf_isSome (env : Env) (cs : List Node) :
    (swatchVariantsOf env cs).isSome = cs.all (fun c => c.className.isSome) := by
  induction cs with
  | nil => rfl
  | cons c rest ih =>
    simp only [swatchVariantsOf, containerVariants, List.all_cons]
    cases hc : c.className with
    | none => rfl
    | some cls =>
      cases hrest : swatchVariantsOf env rest with
      | none => rw [hrest] at ih; simp [← ih]
      | some more => rw [hrest] at ih; simp [← ih]

theorem productRecord_isSome (env : Env) (doc : Document) (productEl : Node) (index : Nat) :
    (productRecord env doc productEl index).isSome = callbackCompletes env productEl := by
  have hsw := swatchVariantsOf_isSome env (productEl.querySelectorAll swatchContainerSelector)
  unfold productRecord callbackCompletes variantList swatchVariants
  rw [← hsw]
  cases swatchVariantsOf env (productEl.querySelectorAll swatchContainerSelector) with
  | none => rfl
  | some pushed =>
    cases resolveLink env (url productEl) with
    | none => rfl
    | some href => rfl

theorem mapRecords_some (env : Env) (doc : Document) (l : List Node) :
    ∀ k : Nat, l.all (callbackCompletes env) = true →
      ∃ rs, mapRecords env doc k l = some rs ∧ rs.length = l.length ∧
        ∀ i, i < l.length →
          ∃ el, l.get? i = some el ∧ productRecord env doc el (k + i) = rs.get? i := by
  induction l with
  | nil => intro k _; exact ⟨[], rfl, rfl, by intro i hi; simp at hi⟩
  | cons el rest ih =>
    intro k h
    simp only [List.all_cons, Bool.and_eq_true] at h
    obtain ⟨rs, hrs, hlen, hget⟩ := ih (k + 1) h.2
    have hsome : (productRecord env doc el k).isSome = true := by
      rw [productRecord_isSome]; exact h.1
    obtain ⟨r, hr⟩ := Option.isSome_iff_exists.mp hsome
    refine ⟨r :: rs, by simp [mapRecords, hr, hrs], by simp [hlen], ?_⟩
    intro i hi
    cases i with
    | zero => exact ⟨el, rfl, by simpa using hr⟩
    | succ j =>
      obtain ⟨e, he, hp⟩ := hget j (by simpa using hi)
      refine ⟨e, by simpa using he, ?_⟩
      have : k + (j + 1) = k + 1 + j := by omega
      rw [this, hp]; simp

theorem mapRecords_none (env : Env) (doc : Document) (l : List Node) :
    ∀ k : Nat, l.all (callbackCompletes env) = false → mapRecords env doc k l = none := by
  induction l with
  | nil => intro k h; simp at h
  | cons el rest ih =>
    intro k h
    unfold mapRecords
    cases hrec : productRecord env doc el k with
    | none => rfl
    | some r =>
      have hel : callbackCompletes env el = true := by
        rw [← productRecord_isSome env doc el k, hrec]; rfl
      have hrest : rest.all (callbackCompletes env) = false := by
        simpa [List.all_cons, hel] using h
      simp [ih (k + 1) hrest]

/-- Claim C1, amended: when the record callback runs to its end on each of the first 20
candidates, that is, when every swatch container below such a candidate has a string
`className` and the `URL` constructor accepts the link of the candidate, the product
script returns exactly `min 20 n` records for `n` candidates, and the record at position
`i` is the one built from the candidate at position `i` with index `i`. When the
callback does not run to its end on one of them, the script throws and returns
nothing. -/
theorem extractProducts_records (env : Env) (doc : Document) :
    ((doc.productElements.take 20).all (callbackCompletes env) = true →
      ∃ rs, extractProducts env doc = some rs ∧
        rs.length = min 20 doc.productElements.length ∧
        ∀ i, i < rs.length →
          ∃ el, doc.productElements.get? i = some el ∧
            productRecord env doc el i = rs.get? i) ∧
    ((doc.productElements.take 20).all (callbackCompletes env) = false →
      extractProducts env doc = none) := by
  refine ⟨fun hall => ?_, fun hnot => mapRecords_none env doc _ 0 hnot⟩
  obtain ⟨rs, hrs, hlen, hget⟩ := mapRecords_some env doc _ 0 hall
  refine ⟨rs, hrs, by rw [hlen, List.length_take], ?_⟩
  intro i hi
  rw [hlen] at hi
  obtain ⟨el, hel, hp⟩ := hget i hi
  refine ⟨el, ?_, by simpa using hp⟩
  rw [List.length_take] at hi
  rw [← hel]
  simp only [List.get?_eq_getElem?]
  rw [List.getElem?_take_of_lt (by omega)]

/-- The hypotheses of `extractProducts_records` hold on a page with 21 cards, which gives
20 records, and on a page whose only candidate has an SVG swatch container and no link,
which gives none. -/
theorem extractProducts_records_witness :
    (manyDoc.productElements.take 20).all (callbackCompletes sampleEnv) = true ∧
    manyDoc.productElements.length = 21 ∧
    (∃ rs, extractProducts sampleEnv manyDoc = some rs ∧
      rs.length = min 20 manyDoc.productElements.length ∧
      ∀ i, i < rs.length →
        ∃ el, manyDoc.productElements.get? i = some el ∧
          productRecord sampleEnv manyDoc el i = rs.get? i) ∧
    (svgSwatchDoc.productElements.take 20).all (callbackCompletes sampleEnv) = false ∧
    extractProducts sampleEnv svgSwatchDoc = none :=
  ⟨by decide, by decide, (extractProducts_records sampleEnv manyDoc).1 (by decide),
    by decide, (extractProducts_records sampleEnv svgSwatchDoc).2 (by decide)⟩

/-- Claim C1 as stated fails: on a page with one candidate whose link the `URL`
constructor rejects, the product script throws and returns no record at all. -/
theorem extractProducts_throws :
    ¬ ∃ rs, extractProducts sampleEnv brokenLinkDoc = some rs ∧
      rs.length = min 20 brokenLinkDoc.productElements.length := by
  have h : extractProducts sampleEnv brokenLinkDoc = none := by rfl
  rintro ⟨rs, hrs, _⟩
  rw [h] at hrs
  exact Option.noConfusion hrs

theorem firstMatchSet_split (doc : Document) (sels : List Selector)
    (h : ∃ p ∈ sels, (doc.querySelectorAll p).length > 0) :
    ∃ before sel after, sels = before ++ sel :: after ∧
      (∀ p ∈ before, (doc.querySelectorAll p).length = 0) ∧
      (doc.querySelectorAll sel).length > 0 ∧
      firstMatchSet doc sels = doc.querySelectorAll sel := by
  induction sels with
  | nil => obtain ⟨p, hp, _⟩ := h; simp at hp
  | cons s rest ih =>
    by_cases hs : (doc.querySelectorAll s).length > 0
    · exact ⟨[], s, rest, rfl, by simp, hs, by simp [firstMatchSet, hs]⟩
    · have hrest : ∃ p ∈ rest, (doc.querySelectorAll p).length > 0 := by
        obtain ⟨p, hp, hlen⟩ := h
        rcases List.mem_cons.mp hp with rfl | hp
        · exact absurd hlen hs
        · exact ⟨p, hp, hlen⟩
      obtain ⟨before, sel, after, hsplit, hbefore, hsel, hfirst⟩ := ih hrest
      refine ⟨s :: before, sel, after, by simp [hsplit], ?_, hsel, by simp [firstMatchSet, hs, hfirst]⟩
      intro p hp
      rcases List.mem_cons.mp hp with rfl | hp
      · omega
      · exact hbefore p hp

theorem firstMatchSet_nil (doc : Document) (sels : List Selector)
    (h : ∀ p ∈ sels, (doc.querySelectorAll p).length = 0) : firstMatchSet doc sels = [] := by
  induction sels with
  | nil => rfl
  | cons s rest ih =>
    have hs : (doc.querySelectorAll s).length = 0 := h s (List.mem_cons_self _ _)
    simp only [firstMatchSet, hs, gt_iff_lt, lt_self_iff_false, if_false]
    exact ih (fun p hp => h p (List.mem_cons_of_mem _ hp))

theorem productElements_scan (doc : Document)
    (h : ∀ p ∈ productSelectors, (doc.querySelectorAll p).length = 0) :
    doc.productElements = doc.elements.filter structuralTest := by
  simp [Document.productElements, firstMatchSet_nil doc _ h, structuralScan,
    Document.querySelectorAll, Selector.matches, Simple.matches]

/-- Claim C2: when some selector of the product cascade finds an element, the candidates
are exactly the elements found by the first such selector in cascade order: every
selector before it finds nothing, and neither a later selector nor the structural scan
adds a candidate. -/
theorem productElements_first_match (doc : Document)
    (h : ∃ p ∈ productSelectors, (doc.querySelectorAll p).length > 0) :
    ∃ before sel after, productSelectors = before ++ sel :: after ∧
      (∀ p ∈ before, (doc.querySelectorAll p).length = 0) ∧
      (doc.querySelectorAll sel).length > 0 ∧
      doc.productElements = doc.querySelectorAll sel := by
  obtain ⟨before, sel, after, hsplit, hbefore, hsel, hfirst⟩ :=
    firstMatchSet_split doc productSelectors h
  refine ⟨before, sel, after, hsplit, hbefore, hsel, ?_⟩
  have hne : ¬ (doc.querySelectorAll sel).length = 0 := by omega
  simp [Document.productElements, hfirst, hne]

/-- Claim C10: when no selector of the product cascade finds an element, the structural
scan is closed under ancestors: an element of the document with a selected descendant is
selected too. Hence, when the scan selects anything, the first candidate is the root
element of the document, and the first record is the one built from the root at index 0. -/
theorem structuralScan_ancestor_closed (doc : Document)
    (hnone : ∀ p ∈ productSelectors, (doc.querySelectorAll p).length = 0) :
    (∀ a n, a ∈ doc.elements → n ∈ a.descendants → n ∈ doc.productElements →
      a ∈ doc.productElements) ∧
    (doc.productElements ≠ [] → doc.productElements.head? = some doc.root) ∧
    (∀ env rs, doc.productElements ≠ [] → extractProducts env doc = some rs →
      rs.head? = productRecord env doc doc.root 0) := by
  have hscan := productElements_scan doc hnone
  have hclosed : ∀ a n, a ∈ doc.elements → n ∈ a.descendants → n ∈ doc.productElements →
      a ∈ doc.productElements := by
    intro a n ha hn hsel
    rw [hscan, List.mem_filter] at hsel ⊢
    exact ⟨ha, structuralTest_mono a n hn hsel.2⟩
  have hhead : doc.productElements ≠ [] →
      ∃ rest, doc.productElements = doc.root :: rest := by
    intro hne
    obtain ⟨n, hn⟩ := List.exists_mem_of_ne_nil _ hne
    have hn' := hn
    rw [hscan, List.mem_filter] at hn'
    obtain ⟨hmem, htest⟩ := hn'
    cases hroot : doc.root with
    | text d => simp [Document.elements, hroot, Node.subtree] at hmem
    | elem t al p cs =>
      have helems : doc.elements = doc.root :: doc.root.descendants := by
        simp [Document.elements, hroot, Node.subtree, Node.descendants, Node.children]
      have hrootTest : structuralTest doc.root = true := by
        rw [helems, List.mem_cons] at hmem
        rcases hmem with rfl | hmem
        · exact htest
        · exact structuralTest_mono doc.root n hmem htest
      refine ⟨doc.root.descendants.filter structuralTest, ?_⟩
      rw [hscan, helems, List.filter_cons, if_pos hrootTest, hroot]
  refine ⟨hclosed, ?_, ?_⟩
  · intro hne
    obtain ⟨rest, hrest⟩ := hhead hne
    rw [hrest]; rfl
  · intro env rs hne hrs
    obtain ⟨rest, hrest⟩ := hhead hne
    simp only [extractProducts, hrest, List.take_succ_cons, mapRecords] at hrs
    cases hrec : productRecord env doc doc.root 0 with
    | none => simp [hrec] at hrs
    | some r =>
      rw [hrec] at hrs
      cases hmap : mapRecords env doc (0 + 1) (List.take 19 rest) with
      | none => simp [hmap] at hrs
      | some tl =>
        simp [hmap] at hrs
        rw [← hrs]; rfl

theorem productRecord_eq (env : Env) (doc : Document) (productEl : Node) (index : Nat)
    (r : ProductRecord) (hr : productRecord env doc productEl index = some r) :
    r.id = productId productEl index ∧
    r.price = orElse (price productEl) "N/A" ∧
    r.availability = availability env productEl ∧
    (∃ pushed, variantList env productEl = some pushed ∧ r.variants = variants pushed) ∧
    r.images = images productEl index := by
  unfold productRecord at hr
  cases hv : variantList env productEl with
  | none => simp [hv] at hr
  | some pushed =>
    cases hl : resolveLink env (url productEl) with
    | none => simp [hv, hl] at hr
    | some href =>
      simp only [hv, hl, Option.some.injEq] at hr
      subst hr
      exact ⟨rfl, rfl, rfl, ⟨pushed, rfl, rfl⟩, rfl⟩

theorem classifyAvailability_enum (t : String) :
    classifyAvailability t = "unknown" ∨ classifyAvailability t = "in_stock" ∨
      classifyAvailability t = "out_of_stock" ∨ classifyAvailability t = "preorder" := by
  unfold classifyAvailability
  split
  · exact Or.inr (Or.inl rfl)
  · split
    · exact Or.inr (Or.inr (Or.inl rfl))
    · split
      · exact Or.inr (Or.inr (Or.inr rfl))
      · exact Or.inl rfl

/-- Claim C4: the availability of a record is `unknown` when the candidate has no
availability-marked descendant; otherwise, with the lower-cased text of the first such
descendant, it is `in_stock` when the text contains `in stock` or `available`, else
`out_of_stock` when it contains `out of stock` or `sold out`, else `preorder` when it
contains `preorder` or `pre-order`, else `unknown`. It is always one of these four
values. -/
theorem availability_spec (env : Env) (doc : Document) (productEl : Node) (index : Nat)
    (r : ProductRecord) (hr : productRecord env doc productEl index = some r) :
    (productEl.querySelector availabilitySelector = none → r.availability = "unknown") ∧
    (∀ el, productEl.querySelector availabilitySelector = some el →
      r.availability =
        if jsIncludes (env.toLowerCase el.textContent) "in stock" = true ∨
            jsIncludes (env.toLowerCase el.textContent) "available" = true then "in_stock"
        else if jsIncludes (env.toLowerCase el.textContent) "out of stock" = true ∨
            jsIncludes (env.toLowerCase el.textContent) "sold out" = true then "out_of_stock"
        else if jsIncludes (env.toLowerCase el.textContent) "preorder" = true ∨
            jsIncludes (env.toLowerCase el.textContent) "pre-order" = true then "preorder"
        else "unknown") ∧
    (r.availability = "unknown" ∨ r.availability = "in_stock" ∨
      r.availability = "out_of_stock" ∨ r.availability = "preorder") := by
  obtain ⟨_, _, hav, _, _⟩ := productRecord_eq env doc productEl index r hr
  rw [hav]
  refine ⟨?_, ?_, ?_⟩
  · intro h; simp [availability, h]
  · intro el h
    simp [availability, h, classifyAvailability]
  · unfold availability
    split
    · exact classifyAvailability_enum _
    · exact Or.inl rfl

theorem isChoice_eq (o : Node) : isChoice o = !isPlaceholder o := by
  unfold isChoice isPlaceholder
  cases h1 : truthy o.props.value <;> cases h2 : (o.props.value == some "choose") <;>
    cases h3 : (jsTrim o.textContent == "Select") <;> simp [bne, h1, h2, h3]

theorem controlVariants_length (productEl : Node) :
    (controlVariants productEl variantSelectors).length = (selectionOptions productEl).length := by
  unfold variantSelectors selectionOptions
  simp only [controlVariants, List.append_nil]
  cases productEl.querySelector variantSelector with
  | none => rfl
  | some v =>
    simp only [selectVariants, List.length_map]
    congr 2
    funext o
    exact isChoice_eq o

theorem swatchVariantsOf_length (env : Env) (cs : List Node) :
    ∀ l, swatchVariantsOf env cs = some l →
      l.length =
        ((cs.map (fun container => container.querySelectorAll swatchSelector)).flatten).length := by
  induction cs with
  | nil => intro l h; simp [swatchVariantsOf] at h; subst h; rfl
  | cons c rest ih =>
    intro l h
    unfold swatchVariantsOf at h
    cases hc : containerVariants env c with
    | none => simp [hc] at h
    | some pushed =>
      cases hrest : swatchVariantsOf env rest with
      | none => simp [hc, hrest] at h
      | some more =>
        simp only [hc, hrest, Option.some.injEq] at h
        subst h
        have hp : pushed.length = (c.querySelectorAll swatchSelector).length := by
          unfold containerVariants at hc
          cases hcn : c.className with
          | none => simp [hcn] at hc
          | some cls =>
            simp only [hcn, Option.some.injEq] at hc
            subst hc
            simp
        simp [hp, ih more hrest]

theorem variantList_length (env : Env) (productEl : Node) (pushed : List VariantOption)
    (h : variantList env productEl = some pushed) :
    pushed.length =
      (selectionOptions productEl).length + (swatchActuators productEl).length := by
  unfold variantList swatchVariants at h
  cases hs : swatchVariantsOf env (productEl.querySelectorAll swatchContainerSelector) with
  | none => simp [hs] at h
  | some l =>
    simp only [hs, Option.map_some', Option.some.injEq] at h
    subst h
    simp [controlVariants_length, swatchVariantsOf_length env _ l hs, swatchActuators]

/-- Claim C5: the `variants` field of a record is `null` exactly when the candidate has
no selection option (placeholders skipped) and no swatch actuator; otherwise it is an
array which is not empty, with one entry per selection option and swatch actuator. -/
theorem variants_null_iff (env : Env) (doc : Document) (productEl : Node) (index : Nat)
    (r : ProductRecord) (hr : productRecord env doc productEl index = some r) :
    (r.variants = none ↔ selectionOptions productEl = [] ∧ swatchActuators productEl = []) ∧
    (∀ vs, r.variants = some vs → vs ≠ [] ∧
      vs.length = (selectionOptions productEl).length + (swatchActuators productEl).length) := by
  obtain ⟨_, _, _, ⟨pushed, hpushed, hv⟩, _⟩ := productRecord_eq env doc productEl index r hr
  rw [hv]
  have hlen := variantList_length env productEl pushed hpushed
  unfold variants
  constructor
  · constructor
    · intro h
      split at h
      · exact Option.noConfusion h
      · exact ⟨List.length_eq_zero.mp (by omega), List.length_eq_zero.mp (by omega)⟩
    · rintro ⟨h1, h2⟩
      have : pushed.length = 0 := by rw [hlen, h1, h2]; rfl
      simp [this]
  · intro vs h
    split at h
    · rename_i hpos
      injection h with h
      subst h
      exact ⟨fun hnil => by rw [hnil] at hpos; simp at hpos, hlen⟩
    · exact Option.noConfusion h

theorem truthy_iff (a : Option String) : truthy a = true ↔ ∃ v, a = some v ∧ v ≠ "" := by
  cases a with
  | none => simp [truthy]
  | some v => simp [truthy]

theorem imageUrl_resolved (img : Node) :
    (resolvedUrl img = none → truthy (imageUrl img) = false) ∧
    (∀ u, resolvedUrl img = some u → imageUrl img = some u ∧ u ≠ "") := by
  unfold resolvedUrl imageUrl
  by_cases h1 : img.props.src = ""
  · cases h2 : img.getAttribute "data-src" with
    | none =>
      cases h3 : img.getAttribute "data-lazy-src" with
      | none => simp [h1, orElseOpt, truthy]
      | some w =>
        by_cases hw : w = ""
        · simp [h1, orElseOpt, truthy, hw]
        · simp [h1, orElseOpt, truthy, hw]
    | some v =>
      by_cases hv : v = ""
      · cases h3 : img.getAttribute "data-lazy-src" with
        | none => simp [h1, orElseOpt, truthy, hv]
        | some w =>
          by_cases hw : w = ""
          · simp [h1, orElseOpt, truthy, hv, hw]
          · simp [h1, orElseOpt, truthy, hv, hw]
      · simp [h1, orElseOpt, truthy, hv]
  · simp [h1, orElseOpt]

theorem keep_listed (index : Nat) (img : Node) :
    (listedUrl img = none → (imageAsset index img).keep = false) ∧
    (∀ u, listedUrl img = some u →
      (imageAsset index img).keep = true ∧ (imageAsset index img).url.getD "" = u) := by
  obtain ⟨hnone, hsome⟩ := imageUrl_resolved img
  unfold listedUrl
  cases hres : resolvedUrl img with
  | none =>
    have ht := hnone hres
    refine ⟨fun _ => ?_, fun u h => Option.noConfusion h⟩
    unfold ImageAsset.keep imageAsset
    cases hu : imageUrl img with
    | none => rfl
    | some u => simp [hu, truthy] at ht; simp [ht]
  | some u =>
    obtain ⟨hu, hne⟩ := hsome u hres
    by_cases hq : jsIncludes u "placeholder" = false ∧ img.props.width > 50
    · refine ⟨fun h => by simp [hq] at h, fun v hv => ?_⟩
      simp only [hq, and_self, if_true, Option.some.injEq] at hv
      subst hv
      exact ⟨by simp [ImageAsset.keep, imageAsset, hu, hne, hq.1, hq.2],
        by simp [imageAsset, hu]⟩
    · refine ⟨fun _ => ?_, fun v hv => by simp [hq] at hv⟩
      simp only [ImageAsset.keep, imageAsset, hu]
      by_cases hp : jsIncludes u "placeholder" = false
      · have hw : ¬ img.props.width > 50 := fun hw => hq ⟨hp, hw⟩
        simp [hw]
      · simp at hp; simp [hp]

theorem images_eq_listed (productEl : Node) (index : Nat) :
    images productEl index = listedImages productEl := by
  unfold images imageAssets listedImages
  induction productEl.querySelectorAll [[.tag "img"]] with
  | nil => rfl
  | cons img rest ih =>
    obtain ⟨hnone, hsome⟩ := keep_listed index img
    cases hl : listedUrl img with
    | none =>
      rw [List.map_cons, List.filter_cons, hnone hl, List.filterMap_cons, hl]
      simpa using ih
    | some u =>
      obtain ⟨hk, hu⟩ := hsome u hl
      rw [List.map_cons, List.filter_cons, hk, List.filterMap_cons, hl]
      simp only [if_true, List.map_cons, hu]
      rw [ih]

/-- Claim C6: the `images` field of a record is the list, in document order, of the
resolved addresses (`src`, else `data-src`, else `data-lazy-src`) of those descendant
images whose resolved address is not empty, does not contain `placeholder`, and whose
width is greater than 50; an image of width 50 or less contributes no entry. -/
theorem images_spec (env : Env) (doc : Document) (productEl : Node) (index : Nat)
    (r : ProductRecord) (hr : productRecord env doc productEl index = some r) :
    r.images = listedImages productEl ∧
    (∀ u ∈ r.images, ∃ img ∈ productEl.querySelectorAll [[.tag "img"]],
      resolvedUrl img = some u ∧ u ≠ "" ∧ jsIncludes u "placeholder" = false ∧
        img.props.width > 50) ∧
    (∀ img ∈ productEl.querySelectorAll [[.tag "img"]], img.props.width ≤ 50 →
      listedUrl img = none) := by
  obtain ⟨_, _, _, _, hi⟩ := productRecord_eq env doc productEl index r hr
  rw [hi, images_eq_listed]
  refine ⟨rfl, ?_, ?_⟩
  · intro u hu
    simp only [listedImages, List.mem_filterMap] at hu
    obtain ⟨img, himg, hl⟩ := hu
    refine ⟨img, himg, ?_⟩
    unfold listedUrl at hl
    cases hres : resolvedUrl img with
    | none => simp [hres] at hl
    | some v =>
      simp only [hres] at hl
      split at hl
      · rename_i hq
        injection hl with hl
        subst hl
        exact ⟨rfl, ((imageUrl_resolved img).2 v hres).2, hq.1, hq.2⟩
      · exact Option.noConfusion hl
  · intro img _ hw
    unfold listedUrl
    cases resolvedUrl img with
    | none => rfl
    | some v =>
      have : ¬ (jsIncludes v "placeholder" = false ∧ img.props.width > 50) := by
        intro h; omega
      simp [this]

theorem priceStep_eq (p : String) (el : Node) :
    priceStep p el = if qualifiesForPrice el = true then jsTrim el.textContent else p := by
  unfold priceStep qualifiesForPrice
  by_cases h : hasCurrencySign el.textContent = true
  · by_cases h2 : (jsTrim el.textContent != "" &&
        decide (jsLength (jsTrim el.textContent) < 200)) = true
    · simp only [h, if_true, h2]
      simp [Bool.and_assoc, h2]
    · simp only [h, if_true, h2]
      simp [Bool.and_assoc, h2]
  · simp [h]

theorem foldl_priceStep (l : List Node) (init : String) :
    l.foldl priceStep init =
      match (l.filter qualifiesForPrice).getLast? with
      | some el => jsTrim el.textContent
      | none => init := by
  induction l using List.reverseRecOn with
  | nil => rfl
  | append_singleton l el ih =>
    rw [List.foldl_append, List.foldl_cons, List.foldl_nil, priceStep_eq, List.filter_append]
    by_cases hq : qualifiesForPrice el = true
    · simp [List.filter, hq]
    · simp only [hq]
      simp only [Bool.false_eq_true, if_false, List.filter, hq, List.append_nil]
      exact ih

theorem priceScan_eq (productEl : Node) :
    priceScan productEl =
      match (productEl.descendants.filter qualifiesForPrice).getLast? with
      | some el => jsTrim el.textContent
      | none => "" := by
  unfold priceScan
  rw [foldl_priceStep]
  simp [Node.querySelectorAll, Selector.matches, Simple.matches]

theorem orElse_ne_empty (a b : String) (hb : b ≠ "") : orElse a b ≠ "" := by
  unfold orElse
  split
  · exact hb
  · assumption

/-- Claim C7: the `price` field of a record is never the empty string, and when the
price cascade yields nothing it is the trimmed text of the last descendant in document
order whose text holds a currency sign and whose trimmed text is not empty and shorter
than 200 (in the units of the `length` property), and `N/A` without such a descendant. -/
theorem price_spec (env : Env) (doc : Document) (productEl : Node) (index : Nat)
    (r : ProductRecord) (hr : productRecord env doc productEl index = some r) :
    r.price ≠ "" ∧
    (cascadeText productEl priceSelectors = "" → r.price = scannedPrice productEl) := by
  obtain ⟨_, hp, _, _, _⟩ := productRecord_eq env doc productEl index r hr
  rw [hp]
  refine ⟨orElse_ne_empty _ _ (by decide), ?_⟩
  intro hc
  unfold price scannedPrice
  simp only [hc, if_true]
  rw [priceScan_eq]
  cases hlast : (productEl.descendants.filter qualifiesForPrice).getLast? with
  | none => rfl
  | some el =>
    have hmem : el ∈ productEl.descendants.filter qualifiesForPrice :=
      List.mem_of_getLast?_eq_some hlast
    have hq : qualifiesForPrice el = true := (List.mem_filter.mp hmem).2
    have hne : jsTrim el.textContent ≠ "" := by
      simp only [qualifiesForPrice, Bool.and_eq_true, bne_iff_ne] at hq
      exact hq.1.2
    simp [orElse, hne]

theorem product_index_ne_empty (index : Nat) : "product-" ++ toString index ≠ "" := by
  intro h
  have := congrArg String.length h
  simp only [String.length_append] at this
  have h8 : "product-".length = 8 := by decide
  have h0 : "".length = 0 := by decide
  omega

theorem productId_eq_expected (productEl : Node) (index : Nat) :
    productId productEl index = expectedId productEl index := by
  have hne := product_index_ne_empty index
  unfold productId expectedId sku dataSku
  cases hp : productEl.getAttribute "data-product-id" with
  | some v =>
    by_cases hv : v = ""
    · subst hv
      cases hs : productEl.getAttribute "data-sku" with
      | some w =>
        by_cases hw : w = ""
        · subst hw
          cases hq : productEl.querySelector skuSelector with
          | some skuEl =>
            by_cases ht : jsTrim skuEl.textContent = ""
            · simp [orElseOpt, truthy, ht]
            · simp [orElseOpt, truthy, ht]
          | none => simp [orElseOpt, truthy]
        · simp [orElseOpt, truthy, hw]
      | none =>
        cases hq : productEl.querySelector skuSelector with
        | some skuEl =>
          by_cases ht : jsTrim skuEl.textContent = ""
          · simp [orElseOpt, truthy, ht]
          · simp [orElseOpt, truthy, ht]
        | none => simp [orElseOpt, truthy]
    · simp [orElseOpt, truthy, hv]
  | none =>
    cases hs : productEl.getAttribute "data-sku" with
    | some w =>
      by_cases hw : w = ""
      · subst hw
        cases hq : productEl.querySelector skuSelector with
        | some skuEl =>
          by_cases ht : jsTrim skuEl.textContent = ""
          · simp [orElseOpt, truthy, ht]
          · simp [orElseOpt, truthy, ht]
        | none => simp [orElseOpt, truthy]
      · simp [orElseOpt, truthy, hw]
    | none =>
      cases hq : productEl.querySelector skuSelector with
      | some skuEl =>
        by_cases ht : jsTrim skuEl.textContent = ""
        · simp [orElseOpt, truthy, ht]
        · simp [orElseOpt, truthy, ht]
      | none => simp [orElseOpt, truthy]

theorem expectedId_ne_empty (productEl : Node) (index : Nat) :
    expectedId productEl index ≠ "" := by
  have hne := product_index_ne_empty index
  unfold expectedId
  split
  · rename_i h
    obtain ⟨v, hv, hvne⟩ := (truthy_iff _).mp h
    simp [hv, hvne]
  · split
    · rename_i h
      obtain ⟨v, hv, hvne⟩ := (truthy_iff _).mp h
      simp [hv, hvne]
    · split
      · split
        · assumption
        · exact hne
      · exact hne

/-- Claim C9: the `id` field of the record built at index `index` is not empty: it is
the `data-product-id` or `data-sku` attribute of the candidate when one is not empty,
else the trimmed text of the sku-marked descendant when that is not empty, else
`product-` followed by the index. -/
theorem id_spec (env : Env) (doc : Document) (productEl : Node) (index : Nat)
    (r : ProductRecord) (hr : productRecord env doc productEl index = some r) :
    r.id ≠ "" ∧ r.id = expectedId productEl index := by
  obtain ⟨hid, _, _, _, _⟩ := productRecord_eq env doc productEl index r hr
  rw [hid, productId_eq_expected]
  exact ⟨expectedId_ne_empty productEl index, rfl⟩

theorem parseBlocks_eq {J : Type} (parse : String → Option J) (l : List Node) :
    parseBlocks parse l = l.filterMap (fun b => parse b.textContent) := by
  induction l with
  | nil => rfl
  | cons b rest ih =>
    unfold parseBlocks
    rw [List.filterMap_cons]
    cases parse b.textContent with
    | none => simpa using ih
    | some v => simp [ih]

theorem filterMap_length_add {J : Type} (parse : String → Option J) (l : List Node) :
    (l.filterMap (fun b => parse b.textContent)).length +
      (l.filter (fun b => (parse b.textContent).isNone)).length = l.length := by
  induction l with
  | nil => rfl
  | cons b rest ih =>
    rw [List.filterMap_cons, List.filter_cons]
    cases h : parse b.textContent with
    | none => simp; omega
    | some v => simp; omega

/-- Claim C8: the `schema_org` entry of the metadata is `null` when the document has no
`ld+json` block; otherwise it is the array of the parsed payloads of exactly the blocks
which parse, in document order, with nothing left in place of a block which does not
parse. Three blocks of which one does not parse give an array of length 2. -/
theorem schema_org_spec {J : Type} (parse : String → Option J) (doc : Document) :
    ((doc.querySelectorAll schemaSelector).length = 0 →
      (extractMetadata parse doc).schema_org = none) ∧
    ((doc.querySelectorAll schemaSelector).length > 0 →
      (extractMetadata parse doc).schema_org =
        some ((doc.querySelectorAll schemaSelector).filterMap
          (fun b => parse b.textContent))) ∧
    ((doc.querySelectorAll schemaSelector).length = 3 →
      ((doc.querySelectorAll schemaSelector).filter
        (fun b => (parse b.textContent).isNone)).length = 1 →
      ∃ l, (extractMetadata parse doc).schema_org = some l ∧ l.length = 2) := by
  have hlen := filterMap_length_add parse (doc.querySelectorAll schemaSelector)
  refine ⟨?_, ?_, ?_⟩
  · intro h
    simp [extractMetadata, schemaOrg, h]
  · intro h
    simp [extractMetadata, schemaOrg, h, parseBlocks_eq]
  · intro h3 h1
    refine ⟨(doc.querySelectorAll schemaSelector).filterMap (fun b => parse b.textContent),
      ?_, by omega⟩
    simp [extractMetadata, schemaOrg, h3, parseBlocks_eq]

theorem productElements_structural_iff (doc : Document)
    (hnone : ∀ p ∈ productSelectors, (doc.querySelectorAll p).length = 0) (el : Node) :
    el ∈ doc.productElements ↔
      el ∈ doc.elements ∧ (el.querySelector [[.tag "img"]]).isSome = true ∧
        (hasCurrencySign el.textContent = true ∨ jsMatch el.textContent scanPattern = true ∨
          (el.querySelector [[.cls "price"]]).isSome = true) := by
  rw [productElements_scan doc hnone, List.mem_filter]
  simp only [structuralTest, Bool.and_eq_true, Bool.or_eq_true]
  constructor
  · rintro ⟨hel, himg, (hm | hc) | hp⟩
    · exact ⟨hel, himg, Or.inr (Or.inl hm)⟩
    · exact ⟨hel, himg, Or.inl hc⟩
    · exact ⟨hel, himg, Or.inr (Or.inr hp)⟩
  · rintro ⟨hel, himg, hc | hm | hp⟩
    · exact ⟨hel, himg, Or.inl (Or.inr hc)⟩
    · exact ⟨hel, himg, Or.inl (Or.inl hm)⟩
    · exact ⟨hel, himg, Or.inr hp⟩

/-- Claim C3 at the page `fifteenDoc`: no selector of the product cascade finds an
element, and the box `fifteenDiv` has an image descendant, the text `15.00` (one or more
digits, a dot, two digits), no currency sign and no price-marked descendant. The
expression literal of the script does not match the text, the structural scan does not
select the box, and the script returns the empty array. -/
theorem structuralScan_misses_decimal :
    (∀ p ∈ productSelectors, (fifteenDoc.querySelectorAll p).length = 0) ∧
    fifteenDiv ∈ fifteenDoc.elements ∧
    (fifteenDiv.querySelector [[.tag "img"]]).isSome = true ∧
    fifteenDiv.textContent = "15.00" ∧
    jsMatch fifteenDiv.textContent decimalPattern = true ∧
    hasCurrencySign fifteenDiv.textContent = false ∧
    (fifteenDiv.querySelector [[.cls "price"]]).isSome = false ∧
    jsMatch fifteenDiv.textContent scanPattern = false ∧
    structuralTest fifteenDiv = false ∧
    fifteenDoc.productElements.length = 0 ∧
    extractProducts sampleEnv fifteenDoc = some [] := by
  refine ⟨by decide, ?_, by decide, by decide, by decide, by decide, by decide, by decide,
    by decide, by decide, by rfl⟩
  simp [Document.elements, fifteenDoc, Node.subtree, Node.subtreeList, fifteenDiv]

/-- The hypothesis of `productElements_first_match` holds on `mixedDoc`, where the
second selector of the cascade is the first to find an element. -/
theorem productElements_first_match_witness :
    (mixedDoc.querySelectorAll [[.cls "product-card"]]).length > 0 ∧
    ∃ before sel after, productSelectors = before ++ sel :: after ∧
      (∀ p ∈ before, (mixedDoc.querySelectorAll p).length = 0) ∧
      (mixedDoc.querySelectorAll sel).length > 0 ∧
      mixedDoc.productElements = mixedDoc.querySelectorAll sel :=
  ⟨by decide, productElements_first_match mixedDoc
    ⟨[[.cls "product-card"]], List.mem_cons_of_mem _ (List.mem_cons_self _ _), by decide⟩⟩

/-- The hypothesis of `structuralScan_ancestor_closed` holds on `euroDoc`, where the
scan selects the box and with it the body and the root. -/
theorem structuralScan_ancestor_closed_witness :
    (∀ p ∈ productSelectors, (euroDoc.querySelectorAll p).length = 0) ∧
    euroDoc.productElements.length = 3 ∧
    euroDoc.productElements.head? = some euroDoc.root :=
  ⟨by decide, by decide,
    (structuralScan_ancestor_closed euroDoc (by decide)).2.1
      (fun h => absurd (congrArg List.length h) (by decide))⟩

/-- The hypotheses of `availability_spec` hold for `lampCard`, whose stock note mentions
both `available` and `sold out`, and for `bareCard`, which has no stock note. -/
theorem availability_spec_witness :
    productRecord sampleEnv lampDoc lampCard 0 = some lampRecord ∧
    lampCard.querySelector availabilitySelector = some stockNote ∧
    lampRecord.availability = "in_stock" ∧
    productRecord sampleEnv bareDoc bareCard 0 = some bareRecord ∧
    bareCard.querySelector availabilitySelector = none ∧
    bareRecord.availability = "unknown" :=
  ⟨by rfl, by rfl,
    ((availability_spec sampleEnv lampDoc lampCard 0 lampRecord (by rfl)).2.1 stockNote
      (by rfl)).trans (by decide),
    by rfl, by rfl,
    (availability_spec sampleEnv bareDoc bareCard 0 bareRecord (by rfl)).1 (by rfl)⟩

/-- The hypothesis of `variants_null_iff` holds for `lampCard`, which has one selection
option and two swatch actuators, and for `bareCard`, which has none. -/
theorem variants_null_iff_witness :
    productRecord sampleEnv lampDoc lampCard 0 = some lampRecord ∧
    (∀ vs, lampRecord.variants = some vs → vs ≠ [] ∧
      vs.length = (selectionOptions lampCard).length + (swatchActuators lampCard).length) ∧
    (selectionOptions lampCard).length = 1 ∧ (swatchActuators lampCard).length = 2 ∧
    productRecord sampleEnv bareDoc bareCard 0 = some bareRecord ∧
    bareRecord.variants = none :=
  ⟨by rfl, (variants_null_iff sampleEnv lampDoc lampCard 0 lampRecord (by rfl)).2,
    by decide, by decide, by rfl,
    (variants_null_iff sampleEnv bareDoc bareCard 0 bareRecord (by rfl)).1.mpr
      ⟨by rfl, by rfl⟩⟩

/-- The hypothesis of `images_spec` holds for `lampCard`, two of whose five images pass
the filter. -/
theorem images_spec_witness :
    productRecord sampleEnv lampDoc lampCard 0 = some lampRecord ∧
    lampRecord.images = listedImages lampCard ∧
    listedImages lampCard = ["https://shop.example/a.png", "https://cdn.example/b.png"] :=
  ⟨by rfl, (images_spec sampleEnv lampDoc lampCard 0 lampRecord (by rfl)).1, by decide⟩

/-- The hypotheses of `price_spec` hold for `lampCard`, where the price cascade yields
nothing and the last of two descendants with a currency sign gives the price. -/
theorem price_spec_witness :
    productRecord sampleEnv lampDoc lampCard 0 = some lampRecord ∧
    cascadeText lampCard priceSelectors = "" ∧
    lampRecord.price = scannedPrice lampCard ∧
    scannedPrice lampCard = "$25.00" :=
  ⟨by rfl, by decide,
    (price_spec sampleEnv lampDoc lampCard 0 lampRecord (by rfl)).2 (by decide), by decide⟩

/-- The hypothesis of `id_spec` holds for `lampCard`, which carries a `data-sku`
attribute, and for `bareCard`, which falls back to its index. -/
theorem id_spec_witness :
    productRecord sampleEnv lampDoc lampCard 0 = some lampRecord ∧
    (lampRecord.id ≠ "" ∧ lampRecord.id = expectedId lampCard 0) ∧
    productRecord sampleEnv bareDoc bareCard 0 = some bareRecord ∧
    (bareRecord.id ≠ "" ∧ bareRecord.id = expectedId bareCard 0) ∧
    expectedId bareCard 0 = "product-0" :=
  ⟨by rfl, id_spec sampleEnv lampDoc lampCard 0 lampRecord (by rfl), by rfl,
    id_spec sampleEnv bareDoc bareCard 0 bareRecord (by rfl), by decide⟩

/-- The hypotheses of `schema_org_spec` hold on `schemaDoc`, which has three blocks of
which one does not parse, and on `bareDoc`, which has none. -/
theorem schema_org_spec_witness :
    (schemaDoc.querySelectorAll schemaSelector).length = 3 ∧
    ((schemaDoc.querySelectorAll schemaSelector).filter
      (fun b => (parseNumeral b.textContent).isNone)).length = 1 ∧
    (∃ l, (extractMetadata parseNumeral schemaDoc).schema_org = some l ∧ l.length = 2) ∧
    (extractMetadata parseNumeral schemaDoc).schema_org = some [1, 3] ∧
    (bareDoc.querySelectorAll schemaSelector).length = 0 ∧
    (extractMetadata parseNumeral bareDoc).schema_org = none :=
  ⟨by decide, by decide,
    (schema_org_spec parseNumeral schemaDoc).2.2 (by decide) (by decide),
    ((schema_org_spec parseNumeral schemaDoc).2.1 (by decide)).trans (by decide),
    by decide, (schema_org_spec parseNumeral bareDoc).1 (by decide)⟩

end BannerAI
